import Mathlib

/-!
Verification of the portfolio-tracker frontend: the derived-holdings
calculator and sort contract of `HoldingsTable`, the dashboard summary,
the axios error interceptor, and the portfolio/holding lookup helpers.
Numeric JavaScript values are modelled as rationals and optional or
nullable fields as `Option`; the stateful parts (localStorage, the
browser location, redirects) are explicit state records.
-/

namespace PortfolioTracker

/-- A security record as delivered by the backend (`Security` in the
frontend's types). `currentPrice` is optional: the backend may omit it. -/
structure Security where
  id : String
  symbol : String
  name : String
  currency : String
  securityType : String
  currentPrice : Option ℚ
  createdAt : String
  updatedAt : String
deriving DecidableEq

/-- A holding record. `security` is the optional nested navigation
property; `totalShares` and `averageCost` may be missing. -/
structure Holding where
  id : String
  securityId : String
  totalShares : Option ℚ
  averageCost : Option ℚ
  security : Option Security
deriving DecidableEq

/-- A holding enriched with the derived fields computed by
`enrichedHoldings` in `HoldingsTable.tsx`; `base` carries the original
holding's fields, as the object spread `{...holding, ...}` does. -/
structure EnrichedHolding where
  base : Holding
  security : Security
  currentPrice : ℚ
  marketValue : ℚ
  bookValue : ℚ
  unrealizedGain : ℚ
  unrealizedGainPercent : ℚ
deriving DecidableEq

/-- The mock security object substituted when the backend did not
populate the `security` navigation property (HoldingsTable.tsx 69-77). -/
def mockSecurity : Security :=
  { id := "", symbol := "N/A", name := "Unknown Security",
    currency := "USD", securityType := "Unknown", currentPrice := none,
    createdAt := "", updatedAt := "" }

/-- One step of the `enrichedHoldings` map (HoldingsTable.tsx 60-110):
missing security short-circuits to safe defaults; otherwise
market value, book value, unrealized gain and gain percent are computed
with `?? 0` defaults, and gain percent is 0 unless book value > 0. -/
def enrichHolding (h : Holding) : EnrichedHolding :=
  match h.security with
  | none =>
      { base := h, security := mockSecurity, currentPrice := 0,
        marketValue := 0, bookValue := 0, unrealizedGain := 0,
        unrealizedGainPercent := 0 }
  | some sec =>
      let currentPrice := sec.currentPrice.getD 0
      let marketValue := h.totalShares.getD 0 * currentPrice
      let bookValue := h.totalShares.getD 0 * h.averageCost.getD 0
      let unrealizedGain := marketValue - bookValue
      let unrealizedGainPercent :=
        if bookValue > 0 then unrealizedGain / bookValue else 0
      { base := h, security := sec, currentPrice := currentPrice,
        marketValue := marketValue, bookValue := bookValue,
        unrealizedGain := unrealizedGain,
        unrealizedGainPercent := unrealizedGainPercent }

/-- The `enrichedHoldings` memo (HoldingsTable.tsx 60-110): enrich every holding. -/
def enrichedHoldings (holdings : List Holding) : List EnrichedHolding :=
  holdings.map enrichHolding

/-- Book value of a holding: totalShares × averageCost with 0 substituted
for missing fields. -/
def bookValueOf (h : Holding) : ℚ :=
  h.totalShares.getD 0 * h.averageCost.getD 0

/-- Effective current price of a holding: 0 when the nested security or
its price is missing. -/
def effectivePriceOf (h : Holding) : ℚ :=
  match h.security with
  | none => 0
  | some sec => sec.currentPrice.getD 0

/-- Concrete security builder used for witness inputs. -/
def mkSecurity (sid sym : String) (price : Option ℚ) : Security :=
  { id := sid, symbol := sym, name := "Test Security", currency := "USD",
    securityType := "Stock", currentPrice := price, createdAt := "",
    updatedAt := "" }

/-- Concrete holding builder used for witness inputs. -/
def mkHolding (hid sid : String) (shares cost : Option ℚ)
    (sec : Option Security) : Holding :=
  { id := hid, securityId := sid, totalShares := shares,
    averageCost := cost, security := sec }

/-! ### Sort contract (HoldingsTable.tsx 116-194) -/

/-- The sortable columns (`SortField` in HoldingsTable.tsx). -/
inductive SortField where
  | symbol
  | shares
  | price
  | cost
  | value
  | gain
  | gainPercent
deriving DecidableEq

/-- Sort direction (`SortDirection` in HoldingsTable.tsx). -/
inductive SortDirection where
  | asc
  | desc
deriving DecidableEq

/-- The string key extracted by the comparator for the `symbol` column:
`a.security?.symbol ?? ''`; after enrichment the security is always set. -/
def stringKey (e : EnrichedHolding) : String :=
  e.security.symbol

/-- The numeric key extracted by the comparator for each numeric column,
with the `?? 0` defaults of HoldingsTable.tsx 127-158.  (For `symbol`
the comparator uses `stringKey` instead; the 0 here is never consulted.) -/
def numericKey (f : SortField) (e : EnrichedHolding) : ℚ :=
  match f with
  | .symbol => 0
  | .shares => e.base.totalShares.getD 0
  | .price => e.currentPrice
  | .cost => e.base.averageCost.getD 0
  | .value => e.marketValue
  | .gain => e.unrealizedGain
  | .gainPercent => e.unrealizedGainPercent

/-- The `localeCompare` result modelled as a rational sign value. -/
def ordToRat : Ordering → ℚ
  | .lt => -1
  | .eq => 0
  | .gt => 1

/-- The comparator passed to `sort` (HoldingsTable.tsx 118-171):
strings via `localeCompare`, numbers by subtraction, with the operand
order swapped for descending. -/
def compareHoldings (f : SortField) (d : SortDirection)
    (a b : EnrichedHolding) : ℚ :=
  match f with
  | .symbol =>
      match d with
      | .asc => ordToRat (compare (stringKey a) (stringKey b))
      | .desc => ordToRat (compare (stringKey b) (stringKey a))
  | _ =>
      match d with
      | .asc => numericKey f a - numericKey f b
      | .desc => numericKey f b - numericKey f a

/-- Element `a` may stay before `b` exactly when the comparator is ≤ 0; a stable
sort with this relation is the ECMAScript `Array.prototype.sort`
semantics for a consistent comparator. -/
def sortLE (f : SortField) (d : SortDirection) (a b : EnrichedHolding) :
    Prop :=
  compareHoldings f d a b ≤ 0

instance (f : SortField) (d : SortDirection) :
    DecidableRel (sortLE f d) := fun a b => by
  unfold sortLE
  infer_instance

/-- The `sortedHoldings` memo (HoldingsTable.tsx 116-174): copy the enriched list
and sort it with the comparator.  `Array.prototype.sort` is a stable
sort, modelled by `List.insertionSort`. -/
def sortedHoldings (f : SortField) (d : SortDirection)
    (holdings : List Holding) : List EnrichedHolding :=
  List.insertionSort (sortLE f d) (enrichedHoldings holdings)

/-- The component's sort state: active field and direction. -/
structure SortState where
  activeField : SortField
  direction : SortDirection
deriving DecidableEq

/-- Flip of the sort direction. -/
def flipDirection : SortDirection → SortDirection
  | .asc => .desc
  | .desc => .asc

/-- The `handleSort` handler (HoldingsTable.tsx 185-194): clicking the active field
flips the direction; clicking a different field selects it ascending. -/
def handleSort (st : SortState) (f : SortField) : SortState :=
  if st.activeField = f then
    { activeField := st.activeField,
      direction := flipDirection st.direction }
  else
    { activeField := f, direction := .asc }

/-! ### Dashboard summary (DashboardPage.tsx 43-92) -/

/-- The portfolio summary computed by `DashboardPage`. -/
structure Summary where
  totalValue : ℚ
  totalCost : ℚ
  totalGain : ℚ
  totalGainPercent : ℚ
  hasMissingPrices : Bool
deriving DecidableEq

/-- A holding lacks price data when its security navigation property is
absent or the security has no `currentPrice` (DashboardPage.tsx 62-75). -/
def missingPrice (h : Holding) : Bool :=
  match h.security with
  | none => true
  | some sec => sec.currentPrice.isNone

/-- Contribution of one holding to `totalValue` (DashboardPage.tsx
59-79): holdings without a security are skipped; otherwise
shares × price with `?? 0` defaults. -/
def holdingValue (h : Holding) : ℚ :=
  match h.security with
  | none => 0
  | some sec => h.totalShares.getD 0 * sec.currentPrice.getD 0

/-- Contribution of one holding to `totalCost` (DashboardPage.tsx
81-86): shares × average cost with `?? 0` defaults. -/
def holdingCost (h : Holding) : ℚ :=
  h.totalShares.getD 0 * h.averageCost.getD 0

/-- The `summary` memo of `DashboardPage` (DashboardPage.tsx 43-92):
zeros for an empty list, otherwise reduce totals over holdings and note
whether any holding lacks a security or a current price. -/
def summary (holdings : List Holding) : Summary :=
  if holdings.isEmpty then
    { totalValue := 0, totalCost := 0, totalGain := 0,
      totalGainPercent := 0, hasMissingPrices := false }
  else
    let totalValue := (holdings.map holdingValue).sum
    let totalCost := (holdings.map holdingCost).sum
    let totalGain := totalValue - totalCost
    let totalGainPercent := if totalCost > 0 then totalGain / totalCost else 0
    { totalValue := totalValue, totalCost := totalCost,
      totalGain := totalGain, totalGainPercent := totalGainPercent,
      hasMissingPrices := holdings.any missingPrice }

/-! ### HTTP client error interceptor (api/client.ts) -/

/-- The error payload the backend may attach to a failed response. -/
structure ErrorData where
  message : Option String
  errors : Option (List (String × String))
deriving DecidableEq

/-- An HTTP response as seen by the axios error interceptor. -/
structure AxiosResponse where
  status : Nat
  data : Option ErrorData
deriving DecidableEq

/-- An axios error: `response` is absent for network failures
(including the 30-second timeout), and `message` is axios's own
error message. -/
structure AxiosErr where
  response : Option AxiosResponse
  message : String
deriving DecidableEq

/-- The uniform `ApiError` shape surfaced to callers. -/
structure ApiError where
  message : String
  statusCode : Nat
  errors : Option (List (String × String))
  data : Option ErrorData
deriving DecidableEq

/-- Browser-side state the interceptor touches: the persisted token and
user record in localStorage, the current location, and the redirects
issued so far (each `window.location.href = target` appends `target`). -/
structure ClientState where
  authToken : Option String
  user : Option String
  pathname : String
  redirects : List String
deriving DecidableEq

/-- Occurrence of `sub` as a contiguous run inside a character list. -/
def hasSubstrAux (sub : List Char) : List Char → Bool
  | [] => sub.isEmpty
  | c :: t => sub.isPrefixOf (c :: t) || hasSubstrAux sub t

/-- Model of `String.prototype.includes`: `sub` occurs as a substring of `s`. -/
def includesSubstr (s sub : String) : Bool :=
  hasSubstrAux sub.toList s.toList

/-- JavaScript `a || b` on an optional string field: the default is used
when the field is absent or the empty string (falsy). -/
def jsOrElse (o : Option String) (d : String) : String :=
  match o with
  | some s => if s = "" then d else s
  | none => d

/-- The rejection handler of `apiClient.interceptors.response`
(client.ts 269-343): classify the failure into the `ApiError` taxonomy
and, on 401, clear the persisted auth token and user record and redirect
to `/login` unless the current pathname already includes `/login`. -/
def handleApiError (e : AxiosErr) (st : ClientState) :
    ClientState × ApiError :=
  match e.response with
  | none =>
      (st, { message := "Network error - please check your internet connection.",
             statusCode := 0, errors := none, data := none })
  | some resp =>
      if resp.status = 401 then
        let cleared : ClientState :=
          { authToken := none, user := none, pathname := st.pathname,
            redirects := st.redirects }
        let redirected : ClientState :=
          if includesSubstr st.pathname "/login" then cleared
          else { cleared with redirects := cleared.redirects ++ ["/login"] }
        (redirected,
         { message := "Your session has expired. Please log in again.",
           statusCode := 401, errors := none, data := none })
      else if resp.status = 403 then
        (st, { message := "You do not have permission to perform this action.",
               statusCode := 403, errors := none, data := none })
      else if resp.status = 404 then
        (st, { message := jsOrElse (resp.data.bind ErrorData.message)
                 "Resource not found.",
               statusCode := 404, errors := none, data := none })
      else if resp.status = 400 then
        (st, { message := jsOrElse (resp.data.bind ErrorData.message)
                 "Invalid request.",
               statusCode := 400,
               errors := resp.data.bind ErrorData.errors, data := none })
      else if 500 ≤ resp.status then
        (st, { message := "Server error. Please try again later.",
               statusCode := resp.status, errors := none, data := none })
      else
        (st, { message := jsOrElse (resp.data.bind ErrorData.message)
                 (if e.message = "" then "An error occurred." else e.message),
               statusCode := resp.status, errors := none,
               data := resp.data })

/-! ### Holding lookup (api/endpoints/holdings.ts) -/

/-- The `findHoldingBySecurityId` helper (holdings.ts 44-61), over the outcome of
the underlying `getPortfolioHoldings` fetch: on success, `find` the
holding whose `securityId` matches (`undefined` becomes `null`); the
`catch` block logs any failure and returns `null`. -/
def findHoldingBySecurityId (fetched : Except ApiError (List Holding))
    (securityId : String) : Except ApiError (Option Holding) :=
  match fetched with
  | .error _ => .ok none
  | .ok holdings =>
      .ok (holdings.find? (fun h => h.securityId = securityId))

/-! ### Default-portfolio query (api/hooks/usePortfolios.ts 87-97) -/

/-- A portfolio record. -/
structure Portfolio where
  id : String
  name : String
  currency : String
  isDefault : Bool
deriving DecidableEq

/-- The query function of `useGetDefaultPortfolio` (usePortfolios.ts
90-93): `portfolios.find((p) => p.isDefault) || portfolios[0] || null`.
A portfolio object is never falsy, so each `||` falls through exactly
when its left operand is `undefined`. -/
def defaultPortfolioOf (portfolios : List Portfolio) : Option Portfolio :=
  match portfolios.find? (fun p => p.isDefault) with
  | some p => some p
  | none => portfolios.head?

/-! ### Concrete records used by the example, counterexamples and
witnesses -/

/-- Concrete portfolio builder used for witness inputs. -/
def mkPortfolio (pid : String) (deflt : Bool) : Portfolio :=
  { id := pid, name := "Portfolio " ++ pid, currency := "AUD",
    isDefault := deflt }

/-- First holding of the spec's worked example: shares 10, average cost
100, current price 120. -/
def exHolding1 : Holding :=
  mkHolding "h1" "s1" (some 10) (some 100)
    (some (mkSecurity "s1" "AAA" (some 120)))

/-- Second holding of the spec's worked example: shares 5, average cost
50, current price 40. -/
def exHolding2 : Holding :=
  mkHolding "h2" "s2" (some 5) (some 50)
    (some (mkSecurity "s2" "BBB" (some 40)))

/-- Two holdings with equal share counts (tied sort keys) but different
ids: input for the sort-reversal counterexample. -/
def tieHolding1 : Holding :=
  mkHolding "t1" "s1" (some 1) (some 10)
    (some (mkSecurity "s1" "AAA" (some 10)))

/-- Companion of `tieHolding1` with the same share count. -/
def tieHolding2 : Holding :=
  mkHolding "t2" "s2" (some 1) (some 20)
    (some (mkSecurity "s2" "BBB" (some 10)))

/-- The uniform network error produced when no response arrived. -/
def networkError : ApiError :=
  { message := "Network error - please check your internet connection.",
    statusCode := 0, errors := none, data := none }

/-- A browser state sitting on the dashboard with a live session. -/
def dashboardState : ClientState :=
  { authToken := some "jwt-token", user := some "user-1",
    pathname := "/dashboard", redirects := [] }

/-- A timed-out request: axios rejects with no response attached. -/
def timeoutErr : AxiosErr :=
  { response := none, message := "timeout of 30000ms exceeded" }

/-- A bare 401 response. -/
def unauthorizedResponse : AxiosResponse :=
  { status := 401, data := none }

/-- The axios error wrapping a 401 response. -/
def unauthorizedErr : AxiosErr :=
  { response := some unauthorizedResponse,
    message := "Request failed with status code 401" }

/-!
## Theorems

Each claim of the specification is settled by one theorem below.
-/

/-- Helper: enrichment always carries the original holding unchanged in
`base` (the object spread `{...holding, ...}`). -/
theorem enrichHolding_base (h : Holding) : (enrichHolding h).base = h := by
  unfold enrichHolding
  cases h.security <;> rfl

/-- Helper: `jsOrElse` never produces the empty string when its default
is nonempty. -/
theorem jsOrElse_ne_empty (o : Option String) (d : String) (hd : d ≠ "") :
    jsOrElse o d ≠ "" := by
  cases o with
  | none => exact hd
  | some s =>
      show (if s = "" then d else s) ≠ ""
      by_cases hs : s = ""
      · rw [if_pos hs]
        exact hd
      · rw [if_neg hs]
        exact hs

/-- C1: a holding whose book value (totalShares × averageCost, with 0
for missing fields) is 0 gets `unrealizedGainPercent` exactly 0 — the
division is never performed — while `unrealizedGain` still equals
`marketValue - bookValue`. -/
theorem gainPercent_zero_of_bookValue_zero (h : Holding)
    (hb : bookValueOf h = 0) :
    (enrichHolding h).unrealizedGainPercent = 0 ∧
      (enrichHolding h).unrealizedGain =
        (enrichHolding h).marketValue - (enrichHolding h).bookValue := by
  unfold bookValueOf at hb
  unfold enrichHolding
  cases hsec : h.security with
  | none => simp
  | some sec => simp [hb]

/-- Witness for C1 at a holding with 0 shares (book value 0·100 = 0). -/
theorem gainPercent_zero_of_bookValue_zero_witness :
    bookValueOf (mkHolding "h0" "s0" (some 0) (some 100)
        (some (mkSecurity "s0" "ZZZ" (some 5)))) = 0 ∧
      ((enrichHolding (mkHolding "h0" "s0" (some 0) (some 100)
          (some (mkSecurity "s0" "ZZZ" (some 5))))).unrealizedGainPercent
          = 0 ∧
        (enrichHolding (mkHolding "h0" "s0" (some 0) (some 100)
          (some (mkSecurity "s0" "ZZZ" (some 5))))).unrealizedGain =
          (enrichHolding (mkHolding "h0" "s0" (some 0) (some 100)
            (some (mkSecurity "s0" "ZZZ" (some 5))))).marketValue -
          (enrichHolding (mkHolding "h0" "s0" (some 0) (some 100)
            (some (mkSecurity "s0" "ZZZ" (some 5))))).bookValue) :=
  ⟨by norm_num [bookValueOf, mkHolding],
   gainPercent_zero_of_bookValue_zero _
     (by norm_num [bookValueOf, mkHolding])⟩

/-- C2: market value is always totalShares (default 0) times the
effective current price (0 when the security or its price is missing),
and on the spec's worked example the derived values are market values
[1200, 200], gains [200, -50] and gain fractions [1/5, -1/5]
(+20 % and −20 %). -/
theorem marketValue_eq_shares_mul_price :
    (∀ h : Holding,
      (enrichHolding h).marketValue =
        h.totalShares.getD 0 * effectivePriceOf h) ∧
      ((enrichedHoldings [exHolding1, exHolding2]).map
          EnrichedHolding.marketValue = [1200, 200] ∧
        (enrichedHoldings [exHolding1, exHolding2]).map
          EnrichedHolding.unrealizedGain = [200, -50] ∧
        (enrichedHoldings [exHolding1, exHolding2]).map
          EnrichedHolding.unrealizedGainPercent = [1/5, -(1/5)]) := by
  constructor
  · intro h
    unfold enrichHolding effectivePriceOf
    cases hsec : h.security with
    | none => simp
    | some sec => rfl
  · refine ⟨?_, ?_, ?_⟩ <;>
      norm_num [enrichedHoldings, enrichHolding, exHolding1, exHolding2,
        mkHolding, mkSecurity]

/-- C5: clicking the active sort field flips the direction and keeps the
field; clicking any other field selects it with ascending direction. -/
theorem handleSort_toggle_or_reset (st : SortState) (f : SortField) :
    (st.activeField = f →
      handleSort st f =
        { activeField := st.activeField,
          direction := flipDirection st.direction }) ∧
      (st.activeField ≠ f →
        handleSort st f = { activeField := f, direction := .asc }) := by
  constructor <;> intro hf <;> simp [handleSort, hf]

/-- Witness for C5: toggling `shares` while `shares` is active flips to
descending; selecting `price` instead resets to ascending. -/
theorem handleSort_toggle_or_reset_witness :
    (handleSort { activeField := .shares, direction := .asc } .shares =
        { activeField := .shares, direction := .desc }) ∧
      (handleSort { activeField := .shares, direction := .asc } .price =
        { activeField := .price, direction := .asc }) :=
  ⟨(handleSort_toggle_or_reset
      { activeField := .shares, direction := .asc } .shares).1 rfl,
   (handleSort_toggle_or_reset
      { activeField := .shares, direction := .asc } .price).2
     (by decide)⟩

/-- C6: a holding without a nested security is enriched with the safe
defaults (symbol "N/A", price 0, all derived values 0), and whenever
some holding lacks a security or a current price the summary's
`hasMissingPrices` flag is true while the totals are still the computed
sums (the computation is total and never fails). -/
theorem missing_security_defaults_and_missing_price_flag :
    (∀ h : Holding, h.security = none →
      (enrichHolding h).security.symbol = "N/A" ∧
        (enrichHolding h).currentPrice = 0 ∧
        (enrichHolding h).marketValue = 0 ∧
        (enrichHolding h).bookValue = 0 ∧
        (enrichHolding h).unrealizedGain = 0 ∧
        (enrichHolding h).unrealizedGainPercent = 0) ∧
      (∀ (l : List Holding) (h₀ : Holding), h₀ ∈ l →
        missingPrice h₀ = true →
        (summary l).hasMissingPrices = true ∧
          (summary l).totalValue = (l.map holdingValue).sum ∧
          (summary l).totalCost = (l.map holdingCost).sum ∧
          (summary l).totalGain =
            (summary l).totalValue - (summary l).totalCost) := by
  constructor
  · intro h hsec
    simp [enrichHolding, hsec, mockSecurity]
  · intro l h₀ hmem hmp
    have hne : l.isEmpty = false := by
      cases l with
      | nil => cases hmem
      | cons a t => rfl
    refine ⟨?_, ?_, ?_, ?_⟩ <;> simp [summary, hne]
    exact ⟨h₀, hmem, hmp⟩

/-- Witness for C6 at a security-less holding and a one-element list
containing it. -/
theorem missing_security_defaults_witness :
    ((mkHolding "hx" "sx" (some 3) (some 7) none).security = none ∧
      (enrichHolding (mkHolding "hx" "sx" (some 3) (some 7) none)
        ).security.symbol = "N/A") ∧
      (missingPrice (mkHolding "hx" "sx" (some 3) (some 7) none) = true ∧
        (summary [mkHolding "hx" "sx" (some 3) (some 7) none]
          ).hasMissingPrices = true) :=
  ⟨⟨rfl, ((missing_security_defaults_and_missing_price_flag.1 _ rfl)).1⟩,
   ⟨rfl,
    (missing_security_defaults_and_missing_price_flag.2
        [mkHolding "hx" "sx" (some 3) (some 7) none] _
        (List.mem_singleton.mpr rfl) rfl).1⟩⟩

/-- C9: the default-portfolio query resolves to the first portfolio
whose `isDefault` flag is set, to the first portfolio when no flag is
set, and to `null` on an empty list. -/
theorem defaultPortfolio_resolution (l : List Portfolio) :
    (l = [] → defaultPortfolioOf l = none) ∧
      ((∀ p ∈ l, p.isDefault = false) →
        defaultPortfolioOf l = l.head?) ∧
      (∀ (l₁ l₂ : List Portfolio) (p : Portfolio),
        l = l₁ ++ p :: l₂ → (∀ q ∈ l₁, q.isDefault = false) →
        p.isDefault = true → defaultPortfolioOf l = some p) := by
  refine ⟨?_, ?_, ?_⟩
  · rintro rfl
    rfl
  · intro hnone
    unfold defaultPortfolioOf
    have : l.find? (fun p => p.isDefault) = none := by
      rw [List.find?_eq_none]
      intro x hx
      simp [hnone x hx]
    rw [this]
  · rintro l₁ l₂ p rfl hfalse hp
    unfold defaultPortfolioOf
    have : (l₁ ++ p :: l₂).find? (fun q => q.isDefault) = some p := by
      induction l₁ with
      | nil => simp [List.find?_cons, hp]
      | cons a t ih =>
          have ha : a.isDefault = false := hfalse a (by simp)
          simp only [List.cons_append, List.find?_cons, ha]
          exact ih fun q hq => hfalse q (by simp [hq])
    rw [this]

/-- Witness for C9: a three-portfolio list whose first default sits in
the middle, a list with no default, and the empty list. -/
theorem defaultPortfolio_resolution_witness :
    defaultPortfolioOf ([] : List Portfolio) = none ∧
      defaultPortfolioOf [mkPortfolio "p1" false, mkPortfolio "p2" false] =
        some (mkPortfolio "p1" false) ∧
      defaultPortfolioOf
          [mkPortfolio "p1" false, mkPortfolio "p2" true,
            mkPortfolio "p3" true] = some (mkPortfolio "p2" true) :=
  ⟨(defaultPortfolio_resolution []).1 rfl,
   (defaultPortfolio_resolution _).2.1
     (by
       intro q hq
       simp only [List.mem_cons, List.mem_singleton] at hq
       rcases hq with rfl | rfl | hq
       · rfl
       · rfl
       · cases hq),
   (defaultPortfolio_resolution _).2.2 [mkPortfolio "p1" false]
     [mkPortfolio "p3" true] (mkPortfolio "p2" true) rfl
     (by
       intro q hq
       rw [List.mem_singleton] at hq
       subst hq
       rfl)
     rfl⟩

/-- C3: on any 401 response the interceptor clears the persisted auth
token and user record, surfaces an error with statusCode 401, and issues
exactly one redirect to `/login` — none when the current location is
already the login page. -/
theorem unauthorized_clears_auth_and_redirects_once (e : AxiosErr)
    (st : ClientState) (resp : AxiosResponse)
    (hresp : e.response = some resp) (hstat : resp.status = 401) :
    (handleApiError e st).1.authToken = none ∧
      (handleApiError e st).1.user = none ∧
      (handleApiError e st).2.statusCode = 401 ∧
      (includesSubstr st.pathname "/login" = true →
        (handleApiError e st).1.redirects = st.redirects) ∧
      (includesSubstr st.pathname "/login" = false →
        (handleApiError e st).1.redirects = st.redirects ++ ["/login"]) := by
  by_cases hlog : includesSubstr st.pathname "/login" = true
  · simp [handleApiError, hresp, hstat, hlog]
  · rw [Bool.not_eq_true] at hlog
    simp [handleApiError, hresp, hstat, hlog]

/-- Witness for C3: a 401 on the dashboard clears the session and
appends the single `/login` redirect. -/
theorem unauthorized_clears_auth_witness :
    (handleApiError unauthorizedErr dashboardState).1.authToken = none ∧
      (handleApiError unauthorizedErr dashboardState).1.user = none ∧
      (handleApiError unauthorizedErr dashboardState).2.statusCode = 401 ∧
      (handleApiError unauthorizedErr dashboardState).1.redirects =
        ["/login"] := by
  have h := unauthorized_clears_auth_and_redirects_once unauthorizedErr
    dashboardState unauthorizedResponse rfl rfl
  refine ⟨h.1, h.2.1, h.2.2.1, ?_⟩
  have hx := h.2.2.2.2 (by decide)
  simpa [dashboardState] using hx

/-- C7: a failed request without an HTTP response (network failure or
the 30-second timeout) is surfaced as the uniform error with statusCode
0 and the network message, and every failure surfaced by the
interceptor carries a nonempty message (and, by the `ApiError` shape,
always a `statusCode`). -/
theorem network_failure_uniform_error (e : AxiosErr) (st : ClientState) :
    (e.response = none →
      (handleApiError e st).2 =
        { message :=
            "Network error - please check your internet connection.",
          statusCode := 0, errors := none, data := none }) ∧
      (handleApiError e st).2.message ≠ "" := by
  constructor
  · intro hnone
    simp [handleApiError, hnone]
  · cases hresp : e.response with
    | none =>
        simp only [handleApiError, hresp]
        decide
    | some resp =>
        simp only [handleApiError, hresp]
        split_ifs <;> dsimp only <;>
          first
            | decide
            | exact jsOrElse_ne_empty _ _ (by decide)
            | exact jsOrElse_ne_empty _ _ (by assumption)

/-- Witness for C7 at a timed-out request (no response). -/
theorem network_failure_uniform_error_witness :
    (handleApiError timeoutErr dashboardState).2 = networkError ∧
      (handleApiError timeoutErr dashboardState).2.message ≠ "" :=
  ⟨(network_failure_uniform_error timeoutErr dashboardState).1 rfl,
   (network_failure_uniform_error timeoutErr dashboardState).2⟩

/-- C8 counterexample: when the underlying holdings fetch fails (here
with the uniform network error), `findHoldingBySecurityId` does not
propagate the failure — the `catch` block swallows it and the call
resolves to `null`, contradicting both the null-exactly-when-not-found
reading and the failures-propagate-to-the-caller reading. -/
theorem findHolding_swallows_fetch_failure :
    findHoldingBySecurityId (Except.error networkError) "s1" =
      Except.ok none := rfl

/-- C8 as amended: `findHoldingBySecurityId` never propagates an error —
on a successful fetch, `null` means exactly that no holding carries the
given securityId, and on any fetch failure the error is caught, logged
and also turned into `null`. -/
theorem findHolding_null_iff_absent (fetched : Except ApiError (List Holding))
    (sid : String) :
    (∀ err : ApiError,
      findHoldingBySecurityId fetched sid ≠ Except.error err) ∧
      (∀ l : List Holding, fetched = Except.ok l →
        (findHoldingBySecurityId fetched sid = Except.ok none ↔
          ∀ h ∈ l, h.securityId ≠ sid)) := by
  constructor
  · intro err
    cases fetched <;> simp [findHoldingBySecurityId]
  · rintro l rfl
    simp only [findHoldingBySecurityId, Except.ok.injEq]
    rw [List.find?_eq_none]
    simp

/-- Witness for C8's amended claim: a one-holding list without the
requested securityId yields `null`, and the result is never the error
case. -/
theorem findHolding_null_iff_absent_witness :
    (findHoldingBySecurityId
        (Except.ok [mkHolding "h1" "s1" none none none]) "s2" ≠
      Except.error networkError) ∧
      (findHoldingBySecurityId
          (Except.ok [mkHolding "h1" "s1" none none none]) "s2" =
        Except.ok none ↔
        ∀ h ∈ [mkHolding "h1" "s1" none none none],
          h.securityId ≠ "s2") :=
  ⟨(findHolding_null_iff_absent
      (Except.ok [mkHolding "h1" "s1" none none none]) "s2").1
      networkError,
   (findHolding_null_iff_absent
      (Except.ok [mkHolding "h1" "s1" none none none]) "s2").2
      [mkHolding "h1" "s1" none none none] rfl⟩

/-- Helper: for a numeric field the ascending relation is comparison of
the numeric keys (subtraction sign). -/
theorem sortLE_asc_iff (f : SortField) (hf : f ≠ SortField.symbol)
    (a b : EnrichedHolding) :
    sortLE f .asc a b ↔ numericKey f a ≤ numericKey f b := by
  cases f
  case symbol => exact absurd rfl hf
  all_goals simp [sortLE, compareHoldings, sub_nonpos]

/-- Helper: for a numeric field the descending relation is the flipped
key comparison. -/
theorem sortLE_desc_iff (f : SortField) (hf : f ≠ SortField.symbol)
    (a b : EnrichedHolding) :
    sortLE f .desc a b ↔ numericKey f b ≤ numericKey f a := by
  cases f
  case symbol => exact absurd rfl hf
  all_goals simp [sortLE, compareHoldings, sub_nonpos]

/-- C4 counterexample: with two holdings tied on the sort key (equal
share counts), the stable sort leaves them in input order for both
directions, so descending is not the reverse of ascending. -/
theorem sortDesc_not_reverse_on_ties :
    sortedHoldings .shares .desc [tieHolding1, tieHolding2] ≠
      (sortedHoldings .shares .asc [tieHolding1, tieHolding2]).reverse := by
  have hd : sortedHoldings .shares .desc [tieHolding1, tieHolding2] =
      [enrichHolding tieHolding1, enrichHolding tieHolding2] := by
    norm_num [sortedHoldings, enrichedHoldings, List.insertionSort,
      List.orderedInsert, sortLE, compareHoldings, numericKey,
      enrichHolding, tieHolding1, tieHolding2, mkHolding, mkSecurity]
  have ha : sortedHoldings .shares .asc [tieHolding1, tieHolding2] =
      [enrichHolding tieHolding1, enrichHolding tieHolding2] := by
    norm_num [sortedHoldings, enrichedHoldings, List.insertionSort,
      List.orderedInsert, sortLE, compareHoldings, numericKey,
      enrichHolding, tieHolding1, tieHolding2, mkHolding, mkSecurity]
  have hne : enrichHolding tieHolding1 ≠ enrichHolding tieHolding2 := by
    intro h
    have hid : tieHolding1.id = tieHolding2.id := by
      have h' := congrArg (fun e => e.base.id) h
      simpa [enrichHolding_base] using h'
    exact absurd hid (by decide)
  rw [hd, ha]
  simp only [List.reverse_cons, List.reverse_nil, List.nil_append,
    List.cons_append, ne_eq, List.cons.injEq, not_and]
  intro h12
  exact absurd h12 hne

/-- C4 as amended: for every numeric sort field, when the holdings'
key values on that field are pairwise distinct (no ties), sorting
descending yields exactly the reverse of sorting ascending.  (With tied
keys the stable sort preserves input order in both directions, so the
unrestricted claim fails; see the counterexample.) -/
theorem sortDesc_reverse_sortAsc (f : SortField)
    (hf : f ≠ SortField.symbol) (l : List Holding)
    (hdist : (enrichedHoldings l).Pairwise
      (fun a b => numericKey f a ≠ numericKey f b)) :
    sortedHoldings f .desc l = (sortedHoldings f .asc l).reverse := by
  classical
  haveI : IsTotal EnrichedHolding (sortLE f .asc) := ⟨fun a b => by
    rw [sortLE_asc_iff f hf, sortLE_asc_iff f hf]
    exact le_total _ _⟩
  haveI : IsTrans EnrichedHolding (sortLE f .asc) := ⟨fun a b c hab hbc => by
    rw [sortLE_asc_iff f hf] at hab hbc ⊢
    exact le_trans hab hbc⟩
  haveI : IsTotal EnrichedHolding (sortLE f .desc) := ⟨fun a b => by
    rw [sortLE_desc_iff f hf, sortLE_desc_iff f hf]
    exact (le_total _ _).symm⟩
  haveI : IsTrans EnrichedHolding (sortLE f .desc) := ⟨fun a b c hab hbc => by
    rw [sortLE_desc_iff f hf] at hab hbc ⊢
    exact le_trans hbc hab⟩
  haveI : IsAntisymm EnrichedHolding
      (fun a b => numericKey f a < numericKey f b) :=
    ⟨fun _ _ hab hba => (lt_asymm hab hba).elim⟩
  have hsort_asc : List.Sorted (sortLE f .asc) (sortedHoldings f .asc l) :=
    List.sorted_insertionSort _ _
  have hsort_desc : List.Sorted (sortLE f .desc) (sortedHoldings f .desc l) :=
    List.sorted_insertionSort _ _
  have hp_asc : (sortedHoldings f .asc l).Perm (enrichedHoldings l) :=
    List.perm_insertionSort _ _
  have hp_desc : (sortedHoldings f .desc l).Perm (enrichedHoldings l) :=
    List.perm_insertionSort _ _
  have hne_asc : (sortedHoldings f .asc l).Pairwise
      (fun a b => numericKey f a ≠ numericKey f b) :=
    hp_asc.symm.pairwise hdist (fun hxy => Ne.symm hxy)
  have hne_rev : ((sortedHoldings f .desc l).reverse).Pairwise
      (fun a b => numericKey f a ≠ numericKey f b) :=
    (((sortedHoldings f .desc l).reverse_perm.trans hp_desc).symm).pairwise
      hdist (fun hxy => Ne.symm hxy)
  have hstrict_asc : (sortedHoldings f .asc l).Pairwise
      (fun a b => numericKey f a < numericKey f b) := by
    refine List.Pairwise.imp₂ ?_ hsort_asc hne_asc
    intro a b hab hne
    exact lt_of_le_of_ne ((sortLE_asc_iff f hf a b).mp hab) hne
  have hrev_sorted : ((sortedHoldings f .desc l).reverse).Pairwise
      (sortLE f .asc) := by
    rw [List.pairwise_reverse]
    refine List.Pairwise.imp ?_ hsort_desc
    intro a b hab
    rw [sortLE_asc_iff f hf]
    exact (sortLE_desc_iff f hf a b).mp hab
  have hstrict_rev : ((sortedHoldings f .desc l).reverse).Pairwise
      (fun a b => numericKey f a < numericKey f b) := by
    refine List.Pairwise.imp₂ ?_ hrev_sorted hne_rev
    intro a b hab hne
    exact lt_of_le_of_ne ((sortLE_asc_iff f hf a b).mp hab) hne
  have hperm : ((sortedHoldings f .desc l).reverse).Perm
      (sortedHoldings f .asc l) :=
    ((sortedHoldings f .desc l).reverse_perm.trans hp_desc).trans hp_asc.symm
  have heq : (sortedHoldings f .desc l).reverse = sortedHoldings f .asc l :=
    List.eq_of_perm_of_sorted hperm hstrict_rev hstrict_asc
  calc sortedHoldings f .desc l
      = ((sortedHoldings f .desc l).reverse).reverse :=
        (List.reverse_reverse _).symm
    _ = (sortedHoldings f .asc l).reverse := by rw [heq]

/-- Witness for C4's amended claim: the worked-example holdings have
distinct share counts (10 and 5), and descending is the reverse of
ascending on them. -/
theorem sortDesc_reverse_sortAsc_witness :
    (enrichedHoldings [exHolding1, exHolding2]).Pairwise
      (fun a b => numericKey .shares a ≠ numericKey .shares b) ∧
      sortedHoldings .shares .desc [exHolding1, exHolding2] =
        (sortedHoldings .shares .asc [exHolding1, exHolding2]).reverse := by
  have hpair : (enrichedHoldings [exHolding1, exHolding2]).Pairwise
      (fun a b => numericKey .shares a ≠ numericKey .shares b) := by
    norm_num [enrichedHoldings, enrichHolding, exHolding1, exHolding2,
      mkHolding, mkSecurity, numericKey, List.pairwise_cons]
  exact ⟨hpair, sortDesc_reverse_sortAsc .shares (by decide) _ hpair⟩

/-- C10: for every field and direction the sorted output is a
permutation of the enriched input, and enrichment keeps every original
holding unchanged (in order) in the `base` component — the input list
itself is never mutated, `sort` operating on the copy `[...enriched]`. -/
theorem sortedHoldings_perm_enriched (f : SortField) (d : SortDirection)
    (l : List Holding) :
    (sortedHoldings f d l).Perm (enrichedHoldings l) ∧
      (enrichedHoldings l).map EnrichedHolding.base = l := by
  constructor
  · exact List.perm_insertionSort _ _
  · unfold enrichedHoldings
    rw [List.map_map]
    have hcomp : (EnrichedHolding.base ∘ enrichHolding) = id :=
      funext fun h => enrichHolding_base h
    rw [hcomp, List.map_id]

end PortfolioTracker
